import Mathlib

/-!
Verification of the immutable list-state controller underlying the
`SpicyFoodList` component: the add / remove / update / filter operations
over a collection of food records, the two record sources shipped with
the lesson (a sequential pool consumed by shift, and a random picker with
a fresh-id counter), and the starter component behaviour.

Shallow embedding conventions:
* a JS food object becomes the structure `Food`;
* a JS array of foods becomes `List Food`;
* `[...foods, newFood]` becomes `foods ++ [newFood]` (`addFood`);
* `foods.filter((food) => food.id !== id)` becomes `removeFood`;
* the `.map` updater incrementing `heatLevel` becomes `updateFood`;
* `newSpicyFoods.shift()` becomes `getNewSpicyFood`, returning
  `Option Food` (`none` models the `undefined` a shift on an empty
  array returns) together with the remaining pool;
* React state updates become explicit state passing: a system state
  carries the current collection plus the record-source state, and a
  click is a step relation on it.
-/

/-- Food record: `{ id, name, cuisine, heatLevel }` from `data.js`. -/
structure Food where
  id : Nat
  name : String
  cuisine : String
  heatLevel : Nat
deriving DecidableEq, Repr

/-- Seed collection from `data.js` (both variants agree on it). -/
def spicyFoods : List Food :=
  [⟨1, "Buffalo Wings", "American", 3⟩,
   ⟨2, "Mapo Tofu", "Sichuan", 6⟩]

/-- Add operation: `const newFoodArray = [...foods, newFood]` from
`handleAddFood` — copy of `foods` with `newFood` appended at the end. -/
def addFood (foods : List Food) (newFood : Food) : List Food :=
  foods ++ [newFood]

/-- Remove operation: `foods.filter((food) => food.id !== id)` from
`handleLiClick`. -/
def removeFood (foods : List Food) (id : Nat) : List Food :=
  foods.filter (fun food => food.id != id)

/-- Transform applied by the update handler to the matching record:
`{ ...food, heatLevel: food.heatLevel + 1 }`. -/
def incrementHeat (food : Food) : Food :=
  { food with heatLevel := food.heatLevel + 1 }

/-- Update operation: `foods.map((food) => food.id === id ? {...food,
heatLevel: food.heatLevel + 1} : food)` from `handleLiClick`. -/
def updateFood (foods : List Food) (id : Nat) : List Food :=
  foods.map (fun food => if food.id == id then incrementHeat food else food)

/-- Derived view: `foods.filter((food) => filterBy === "All" ? true :
food.cuisine === filterBy)` — the `foodsToDisplay` projection. -/
def foodsToDisplay (foods : List Food) (filterBy : String) : List Food :=
  foods.filter (fun food => if filterBy = "All" then true else food.cuisine == filterBy)

/-- Sequential record source (`data.js` variant with pre-assigned ids):
the module-level pool that `getNewSpicyFood` shifts from. -/
def newSpicyFoods : List Food :=
  [⟨3, "Green Curry", "Thai", 9⟩,
   ⟨4, "Enchiladas", "Mexican", 2⟩,
   ⟨5, "5 Alarm Chili", "American", 5⟩]

/-- Sequential source draw: `newSpicyFoods.shift()`. Returns the first
pooled record (or `none`, modelling `undefined`, when the pool is empty)
together with the pool state after the shift. -/
def getNewSpicyFood (pool : List Food) : Option Food × List Food :=
  (pool.head?, pool.tail)

/-- Proto-record of the random `data.js` variant: pool entries there
carry no `id`; `getNewRandomSpicyFood` stamps one on. -/
structure ProtoFood where
  name : String
  cuisine : String
  heatLevel : Nat
deriving DecidableEq, Repr

/-- Pool of the random `data.js` variant (records without ids). -/
def newSpicyProtoFoods : List ProtoFood :=
  [⟨"Green Curry", "Thai", 9⟩,
   ⟨"Enchiladas", "Mexican", 2⟩,
   ⟨"5 Alarm Chili", "American", 5⟩]

/-- Random source draw: copies the pool entry at `index`
(`Math.floor(Math.random() * newSpicyFoods.length)` always lands in
range, so `index : Fin _`), stamps `nextId` on the copy and increments
the module-level counter. Returns the new record and the new counter. -/
def getNewRandomSpicyFood (nextId : Nat) (index : Fin newSpicyProtoFoods.length) :
    Food × Nat :=
  let p := newSpicyProtoFoods.get index
  (⟨nextId, p.name, p.cuisine, p.heatLevel⟩, nextId + 1)

/-- Heap of arrays, for the allocation behaviour of spread, `.filter`
and `.map`: references are natural numbers, `store` maps each reference
to array contents, and `next` is the next fresh reference. Every
reference below `next` is one a caller may retain. -/
structure Heap where
  store : Nat → List Food
  next : Nat

/-- Allocation of a fresh array holding `v`: the returned reference is
new and the store is extended at it only. -/
def Heap.alloc (h : Heap) (v : List Food) : Nat × Heap :=
  (h.next,
   { store := fun r => if r = h.next then v else h.store r,
     next := h.next + 1 })

/-- Add on the heap model: `[...foods, newFood]` builds a fresh array
from the contents of the array at `r` plus the new record. -/
def addAlloc (h : Heap) (r : Nat) (newFood : Food) : Nat × Heap :=
  h.alloc (addFood (h.store r) newFood)

/-- Remove on the heap model: `.filter` returns a fresh array. -/
def removeAlloc (h : Heap) (r : Nat) (id : Nat) : Nat × Heap :=
  h.alloc (removeFood (h.store r) id)

/-- Update on the heap model: `.map` returns a fresh array. -/
def updateAlloc (h : Heap) (r : Nat) (id : Nat) : Nat × Heap :=
  h.alloc (updateFood (h.store r) id)

/-- System state for the `data.js` variant using the random source: the
component state `foods` together with the module-level counter
`nextId`. -/
structure RandState where
  foods : List Food
  nextId : Nat

/-- Initial random-source state: `useState(spicyFoods)` and
`let nextId = 3`. -/
def randInit : RandState :=
  { foods := spicyFoods, nextId := 3 }

/-- One user click in the finished random-source component: Add New Food
draws from `getNewRandomSpicyFood` and publishes the appended array via
`setFoods`; a click on a list item either removes or updates by id. -/
inductive RandStep : RandState → RandState → Prop
  | add (s : RandState) (index : Fin newSpicyProtoFoods.length) :
      RandStep s
        { foods := addFood s.foods (getNewRandomSpicyFood s.nextId index).1,
          nextId := (getNewRandomSpicyFood s.nextId index).2 }
  | remove (s : RandState) (id : Nat) :
      RandStep s { foods := removeFood s.foods id, nextId := s.nextId }
  | update (s : RandState) (id : Nat) :
      RandStep s { foods := updateFood s.foods id, nextId := s.nextId }

/-- Reachability of a random-source snapshot from the seed. -/
def RandReachable (s : RandState) : Prop :=
  Relation.ReflTransGen RandStep randInit s

/-- System state for the `data.js` variant using the sequential source:
the component state `foods` together with the module-level mutable pool
`newSpicyFoods` that `shift` consumes. -/
structure SeqState where
  foods : List Food
  pool : List Food

/-- Initial sequential-source state: seed foods and the full pool. -/
def seqInit : SeqState :=
  { foods := spicyFoods, pool := newSpicyFoods }

/-- One user click in the finished sequential-source component. The add
step fires when the source still supplies a record (`shift` on a
non-empty pool); remove and update act on the collection only. -/
inductive SeqStep : SeqState → SeqState → Prop
  | add (s : SeqState) (f : Food) (h : (getNewSpicyFood s.pool).1 = some f) :
      SeqStep s { foods := addFood s.foods f, pool := (getNewSpicyFood s.pool).2 }
  | remove (s : SeqState) (id : Nat) :
      SeqStep s { foods := removeFood s.foods id, pool := s.pool }
  | update (s : SeqState) (id : Nat) :
      SeqStep s { foods := updateFood s.foods id, pool := s.pool }

/-- Reachability of a sequential-source snapshot from the seed. -/
def SeqReachable (s : SeqState) : Prop :=
  Relation.ReflTransGen SeqStep seqInit s

/-- Collection slots as JS sees them: a shifted record, or `undefined`
when the pool was already empty. Used to model what the finished
sequential handler really appends. -/
def handleAddFoodSeq (foods : List (Option Food)) (pool : List Food) :
    List (Option Food) × List Food :=
  let drawn := getNewSpicyFood pool
  (foods ++ [drawn.1], drawn.2)

/-- Starter component state: `foods` state plus the sequential pool. -/
structure StarterState where
  foods : List Food
  pool : List Food

/-- Starter `handleAddFood` as shipped in `SpicyFoodList.js`: it calls
`getNewSpicyFood` (shifting the pool) and logs the returned record, but
never calls `setFoods`. Returns the next state and the logged value. -/
def starterHandleAddFood (s : StarterState) : StarterState × Option Food :=
  let drawn := getNewSpicyFood s.pool
  ({ foods := s.foods, pool := drawn.2 }, drawn.1)

/-- Helper: a filter pass keeps exactly the elements whose id differs. -/
lemma mem_removeFood {C : List Food} {i : Nat} {x : Food} :
    x ∈ removeFood C i ↔ x ∈ C ∧ x.id ≠ i := by
  simp [removeFood, List.mem_filter]

/-- Helper: filtering a list that already satisfies the test is the
identity. -/
lemma removeFood_eq_self {C : List Food} {i : Nat}
    (h : ∀ x ∈ C, x.id ≠ i) : removeFood C i = C := by
  unfold removeFood
  rw [List.filter_eq_self]
  intro a ha
  simpa using h a ha

/-- C1: adding a record whose id is absent from the collection yields a
collection one longer, ending in the new record, with the original
collection unchanged as its initial segment. -/
theorem addFood_spec (C : List Food) (r : Food) (h : r.id ∉ C.map Food.id) :
    (addFood C r).length = C.length + 1 ∧
    (addFood C r).getLast? = some r ∧
    (addFood C r).take C.length = C := by
  refine ⟨?_, ?_, ?_⟩
  · simp [addFood]
  · simp [addFood]
  · simp [addFood, List.take_left]

/-- C1 witness: adding Green Curry (id 3) to the seed collection. -/
theorem addFood_spec_witness :
    (⟨3, "Green Curry", "Thai", 9⟩ : Food).id ∉ spicyFoods.map Food.id ∧
    ((addFood spicyFoods ⟨3, "Green Curry", "Thai", 9⟩).length = spicyFoods.length + 1 ∧
     (addFood spicyFoods ⟨3, "Green Curry", "Thai", 9⟩).getLast? =
       some ⟨3, "Green Curry", "Thai", 9⟩ ∧
     (addFood spicyFoods ⟨3, "Green Curry", "Thai", 9⟩).take spicyFoods.length = spicyFoods) :=
  ⟨by decide, addFood_spec spicyFoods ⟨3, "Green Curry", "Thai", 9⟩ (by decide)⟩

/-- C2: removing an id yields a collection with no element of that id,
and every element of a different id survives, as the same value, in the
original relative order (the result is a sublist of the input). -/
theorem removeFood_spec (C : List Food) (i : Nat) :
    (∀ x ∈ removeFood C i, x.id ≠ i) ∧
    (removeFood C i).Sublist C ∧
    (∀ x ∈ C, x.id ≠ i → x ∈ removeFood C i) := by
  refine ⟨?_, ?_, ?_⟩
  · intro x hx
    exact (mem_removeFood.mp hx).2
  · exact List.filter_sublist C
  · intro x hx hid
    exact mem_removeFood.mpr ⟨hx, hid⟩

/-- C6: removing an id matching no record is a no-op: the collection
comes back unchanged (and the operation is total, so no error). -/
theorem removeFood_missing_noop (C : List Food) (i : Nat)
    (h : ∀ x ∈ C, x.id ≠ i) : removeFood C i = C :=
  removeFood_eq_self h

/-- C6 witness: removing id 999 from the seed collection. -/
theorem removeFood_missing_noop_witness :
    (∀ x ∈ spicyFoods, x.id ≠ 999) ∧ removeFood spicyFoods 999 = spicyFoods :=
  ⟨by decide, removeFood_missing_noop spicyFoods 999 (by decide)⟩

/-- C7: remove is idempotent. -/
theorem removeFood_idempotent (C : List Food) (i : Nat) :
    removeFood (removeFood C i) i = removeFood C i :=
  removeFood_eq_self (fun x hx => (mem_removeFood.mp hx).2)

/-- C8: projecting under the show-all sentinel returns the collection
itself, every element in original order. -/
theorem foodsToDisplay_all (C : List Food) : foodsToDisplay C "All" = C := by
  simp [foodsToDisplay]

/-- C10: a click of the starter Add New Food button draws (shifts) one
record from the pool and logs it, but leaves the foods state unchanged;
the pool shrinks by one per click until empty. -/
theorem starterHandleAddFood_spec (s : StarterState) :
    (starterHandleAddFood s).1.foods = s.foods ∧
    (starterHandleAddFood s).2 = (getNewSpicyFood s.pool).1 ∧
    (starterHandleAddFood s).1.pool = s.pool.tail ∧
    (starterHandleAddFood s).1.pool.length = s.pool.length - 1 := by
  refine ⟨rfl, rfl, rfl, ?_⟩
  simp [starterHandleAddFood, getNewSpicyFood]

/-- C3: with pairwise-distinct ids and the target id present, the update
produces a collection of the same length in which the slot holding the
target id now holds the heat-incremented record and every other slot
holds exactly its original record. -/
theorem updateFood_spec (C : List Food) (i : Nat)
    (hu : (C.map Food.id).Nodup) (hi : i ∈ C.map Food.id) :
    (updateFood C i).length = C.length ∧
    ∀ (j : Nat) (hj : j < C.length) (hj2 : j < (updateFood C i).length),
      ((C.get ⟨j, hj⟩).id = i →
        (updateFood C i).get ⟨j, hj2⟩ = incrementHeat (C.get ⟨j, hj⟩)) ∧
      ((C.get ⟨j, hj⟩).id ≠ i →
        (updateFood C i).get ⟨j, hj2⟩ = C.get ⟨j, hj⟩) := by
  refine ⟨by simp [updateFood], ?_⟩
  intro j hj hj2
  constructor
  · intro hid
    simp only [List.get_eq_getElem] at hid ⊢
    simp [updateFood, List.getElem_map, hid]
  · intro hid
    simp only [List.get_eq_getElem] at hid ⊢
    simp [updateFood, List.getElem_map, hid]

/-- C3 witness: incrementing the heat of Mapo Tofu (id 2) in the seed. -/
theorem updateFood_spec_witness :
    (spicyFoods.map Food.id).Nodup ∧ 2 ∈ spicyFoods.map Food.id ∧
    ((updateFood spicyFoods 2).length = spicyFoods.length ∧
     ∀ (j : Nat) (hj : j < spicyFoods.length) (hj2 : j < (updateFood spicyFoods 2).length),
       ((spicyFoods.get ⟨j, hj⟩).id = 2 →
         (updateFood spicyFoods 2).get ⟨j, hj2⟩ = incrementHeat (spicyFoods.get ⟨j, hj⟩)) ∧
       ((spicyFoods.get ⟨j, hj⟩).id ≠ 2 →
         (updateFood spicyFoods 2).get ⟨j, hj2⟩ = spicyFoods.get ⟨j, hj⟩)) :=
  ⟨by decide, by decide, updateFood_spec spicyFoods 2 (by decide) (by decide)⟩

/-- C4: on the heap model, each controller operation allocates a fresh
reference (distinct from every previously valid one) and leaves the
contents of every previously valid reference untouched, so a retained
reference to a prior collection observes unchanged contents. -/
theorem controller_ops_no_mutation (h : Heap) (r r' : Nat) (f : Food) (i : Nat)
    (hr : r' < h.next) :
    ((addAlloc h r f).2.store r' = h.store r' ∧ (addAlloc h r f).1 ≠ r') ∧
    ((removeAlloc h r i).2.store r' = h.store r' ∧ (removeAlloc h r i).1 ≠ r') ∧
    ((updateAlloc h r i).2.store r' = h.store r' ∧ (updateAlloc h r i).1 ≠ r') := by
  have hne : r' ≠ h.next := Nat.ne_of_lt hr
  refine ⟨⟨?_, ?_⟩, ⟨?_, ?_⟩, ⟨?_, ?_⟩⟩ <;>
    simp [addAlloc, removeAlloc, updateAlloc, Heap.alloc, hne, Ne.symm hne]

/-- C4 witness: a one-reference heap holding the seed collection. -/
theorem controller_ops_no_mutation_witness :
    (0 : Nat) < (Heap.mk (fun _ => spicyFoods) 1).next ∧
    (((addAlloc (Heap.mk (fun _ => spicyFoods) 1) 0 ⟨3, "Green Curry", "Thai", 9⟩).2.store 0 =
        (Heap.mk (fun _ => spicyFoods) 1).store 0 ∧
      (addAlloc (Heap.mk (fun _ => spicyFoods) 1) 0 ⟨3, "Green Curry", "Thai", 9⟩).1 ≠ 0) ∧
     ((removeAlloc (Heap.mk (fun _ => spicyFoods) 1) 0 1).2.store 0 =
        (Heap.mk (fun _ => spicyFoods) 1).store 0 ∧
      (removeAlloc (Heap.mk (fun _ => spicyFoods) 1) 0 1).1 ≠ 0) ∧
     ((updateAlloc (Heap.mk (fun _ => spicyFoods) 1) 0 1).2.store 0 =
        (Heap.mk (fun _ => spicyFoods) 1).store 0 ∧
      (updateAlloc (Heap.mk (fun _ => spicyFoods) 1) 0 1).1 ≠ 0)) :=
  ⟨Nat.zero_lt_one,
   controller_ops_no_mutation (Heap.mk (fun _ => spicyFoods) 1) 0 0
     ⟨3, "Green Curry", "Thai", 9⟩ 1 Nat.zero_lt_one⟩

/-- Helper: update rewrites heat levels only, so the id sequence of the
collection is untouched. -/
lemma map_id_updateFood (C : List Food) (i : Nat) :
    (updateFood C i).map Food.id = C.map Food.id := by
  unfold updateFood
  rw [List.map_map]
  apply List.map_congr_left
  intro a _
  by_cases h : a.id = i <;> simp [h, incrementHeat, Function.comp]

/-- Invariant carried by the random-source system: ids are pairwise
distinct and all below the module counter. -/
def randInv (s : RandState) : Prop :=
  (s.foods.map Food.id).Nodup ∧ ∀ x ∈ s.foods, x.id < s.nextId

/-- Helper: the seed satisfies the random-source invariant. -/
lemma randInv_init : randInv randInit := by
  unfold randInv
  exact ⟨by decide, by decide⟩

/-- Helper: every step of the random-source system preserves the
invariant. -/
lemma randInv_step {s t : RandState} (hs : randInv s) (h : RandStep s t) :
    randInv t := by
  obtain ⟨hnd, hlt⟩ := hs
  cases h with
  | add index =>
    constructor
    · simp only [addFood, getNewRandomSpicyFood, List.map_append, List.map_cons,
        List.map_nil, List.nodup_append, List.nodup_singleton, true_and,
        List.disjoint_singleton]
      refine ⟨hnd, ?_⟩
      intro hmem
      obtain ⟨y, hy, hyid⟩ := List.mem_map.mp hmem
      exact absurd (hyid ▸ hlt y hy) (lt_irrefl _)
    · intro x hx
      simp only [addFood, getNewRandomSpicyFood, List.mem_append,
        List.mem_singleton] at hx
      rcases hx with hx | rfl
      · exact Nat.lt_succ_of_lt (hlt x hx)
      · exact Nat.lt_succ_self _
  | remove i =>
    refine ⟨hnd.sublist ((List.filter_sublist _).map Food.id), ?_⟩
    intro x hx
    exact hlt x (mem_removeFood.mp hx).1
  | update i =>
    refine ⟨map_id_updateFood s.foods i ▸ hnd, ?_⟩
    intro x hx
    have hxid : x.id ∈ (updateFood s.foods i).map Food.id :=
      List.mem_map_of_mem _ hx
    rw [map_id_updateFood] at hxid
    obtain ⟨y, hy, hyx⟩ := List.mem_map.mp hxid
    exact hyx ▸ hlt y hy

/-- Helper: the invariant holds at every reachable random-source
snapshot. -/
lemma randReachable_inv {s : RandState} (h : RandReachable s) : randInv s := by
  induction h with
  | refl => exact randInv_init
  | tail _ hstep ih => exact randInv_step ih hstep

/-- Invariant carried by the sequential-source system: the ids of the
collection and of the remaining pool, taken together, are pairwise
distinct. -/
def seqInv (s : SeqState) : Prop :=
  (s.foods.map Food.id ++ s.pool.map Food.id).Nodup

/-- Helper: the seed satisfies the sequential-source invariant. -/
lemma seqInv_init : seqInv seqInit := by
  unfold seqInv
  decide

/-- Helper: every step of the sequential-source system preserves the
invariant. -/
lemma seqInv_step {s t : SeqState} (hs : seqInv s) (h : SeqStep s t) :
    seqInv t := by
  unfold seqInv at *
  cases h with
  | add f hf =>
    have hp : s.pool = f :: s.pool.tail := by
      cases hpool : s.pool with
      | nil =>
        rw [hpool] at hf
        simp [getNewSpicyFood] at hf
      | cons a t =>
        rw [hpool] at hf
        simp only [getNewSpicyFood, List.head?_cons, Option.some.injEq] at hf
        simp [hf]
    rw [hp] at hs
    simpa [addFood, getNewSpicyFood, List.append_assoc] using hs
  | remove i =>
    exact hs.sublist
      (((List.filter_sublist _).map Food.id).append (List.Sublist.refl _))
  | update i =>
    rw [map_id_updateFood]
    exact hs
/-- Helper: the invariant holds at every reachable sequential-source
snapshot. -/
lemma seqReachable_inv {s : SeqState} (h : SeqReachable s) : seqInv s := by
  induction h with
  | refl => exact seqInv_init
  | tail _ hstep ih => exact seqInv_step ih hstep

/-- C5: from the seed collection, under any sequence of add, remove and
update clicks — with added records drawn from the random source (fresh
counter ids) or from the sequential source (pre-assigned ids 3, 4, 5) —
no two records of the reachable collection share an id. -/
theorem id_uniqueness_invariant :
    (∀ s, RandReachable s → (s.foods.map Food.id).Nodup) ∧
    (∀ s, SeqReachable s → (s.foods.map Food.id).Nodup) := by
  constructor
  · intro s h
    exact (randReachable_inv h).1
  · intro s h
    exact (List.nodup_append.mp (seqReachable_inv h)).1

/-- C5 witness: the snapshot after one sequential add (Green Curry,
id 3) has pairwise-distinct ids. -/
theorem id_uniqueness_invariant_witness :
    ((addFood spicyFoods ⟨3, "Green Curry", "Thai", 9⟩).map Food.id).Nodup :=
  id_uniqueness_invariant.2 _
    (Relation.ReflTransGen.single
      (SeqStep.add seqInit ⟨3, "Green Curry", "Thai", 9⟩ rfl))

/-- C9 counterexample: with the pool exhausted, a click of Add New Food
does not leave the seed collection unchanged — `shift` returns
`undefined` and the handler appends it. -/
theorem exhausted_add_changes_collection :
    (handleAddFoodSeq
      [some ⟨1, "Buffalo Wings", "American", 3⟩, some ⟨2, "Mapo Tofu", "Sichuan", 6⟩]
      []).1 ≠
    [some ⟨1, "Buffalo Wings", "American", 3⟩, some ⟨2, "Mapo Tofu", "Sichuan", 6⟩] := by
  decide

/-- C9 amended: when the source is exhausted, `getNewSpicyFood` signals
the condition by returning `undefined` (`none`) instead of crashing, but
the add handler does not leave the collection unchanged: it appends the
`undefined` value, so the collection grows by one ill-formed slot while
the pool stays empty. -/
theorem exhausted_add_spec (foods : List (Option Food)) :
    (getNewSpicyFood []).1 = none ∧
    handleAddFoodSeq foods [] = (foods ++ [none], []) :=
  ⟨rfl, rfl⟩
